import Mathlib

/-!
# nectarflower-go: the `hive` package

A shallow embedding of `hive/client.go` and `hive/node_updater.go`.

* The Go standard library (`net/http`, `net/url`, `encoding/json`) is not part
  of the package.  Every call into it is a field of `Env` (one per client) or
  of `Codec` (one per pair of parameter and result types, standing for what
  `json.Marshal` and `json.Unmarshal` do by reflection on `any`).
* The network is an explicit world state `σ` threaded through `httpClient.Do`.
* `json.Unmarshal(data, v)` writes through the pointer `v` and returns an
  error; it is a function from the old target to the new target and an
  optional error, so what a failed decode leaves behind stays visible.
* `Call` additionally reports the list of nodes on which `callNode` was
  invoked, in invocation order.
-/

set_option autoImplicit false

namespace Hive

/-! ## Go values -/

/-- Go `error` values: `errors.New` or `fmt.Errorf` without `%w` gives `new`,
`fmt.Errorf(pfx + "%w", cause)` gives `wrap`. -/
inductive GoError where
  | new (msg : String)
  | wrap (pfx : String) (cause : GoError)
  deriving DecidableEq, Repr

/-- The method `Error()` of an error value. -/
def GoError.Error : GoError → String
  | .new msg => msg
  | .wrap pfx cause => pfx ++ cause.Error

/-- The function `errors.Unwrap`. -/
def GoError.Unwrap : GoError → Option GoError
  | .new _ => none
  | .wrap _ cause => some cause

/-- A `[]byte` holding text. -/
abbrev Bytes := String

/-- A `map[string]string`, as an association list read by `List.lookup`. -/
abbrev StringMap := List (String × String)

/-- The comma-ok lookup `_, ok := m[key]`. -/
def StringMap.has (m : StringMap) (key : String) : Bool :=
  (m.lookup key).isSome

/-! ## client.go -/

/-- The struct `Client`.  Its `httpClient` field is the `Env` passed to the
operations. -/
structure Client where
  Nodes : List String
  FailingNodes : StringMap
  deriving DecidableEq, Repr

/-- The struct `RPCRequest`. -/
structure RPCRequest (P : Type) where
  JSONRPC : String
  Method : String
  Params : P
  ID : Int

/-- The struct `RPCError`. -/
structure RPCError where
  Code : Int
  Message : String
  deriving DecidableEq, Repr

/-- The struct `RPCResponse`; `Raw` is `json.RawMessage`. -/
structure RPCResponse (Raw : Type) where
  JSONRPC : String
  Result : Raw
  Error : Option RPCError
  ID : Int

/-- What `callNode` reads of an `*http.Request`. -/
structure HTTPRequest where
  Method : String
  URL : String
  Body : Bytes
  Header : List (String × String)
  deriving DecidableEq, Repr

/-- The method `Header.Set`: replace the values stored under `key`. -/
def HTTPRequest.setHeader (req : HTTPRequest) (key value : String) : HTTPRequest :=
  { req with Header := (key, value) :: req.Header.filter (fun kv => kv.1 != key) }

/-- What `callNode` reads of an `*http.Response`: the status code and the
bytes that reading `Body` to its end yields. -/
structure HTTPResponse where
  StatusCode : Int
  Body : Bytes
  deriving DecidableEq, Repr

/-- The constant `http.StatusOK`. -/
def StatusOK : Int := 200

/-- The struct `Account`. -/
structure Account where
  Name : String
  JSONMetadata : String
  deriving DecidableEq, Repr

/-- The struct `AccountParams`. -/
structure AccountParams where
  Accounts : List String
  deriving DecidableEq, Repr

/-- The struct `AccountsResponse`. -/
structure AccountsResponse where
  Accounts : List Account
  deriving DecidableEq, Repr

/-- The struct `NodeData`. -/
structure NodeData where
  Nodes : List String
  FailingNodes : StringMap
  deriving DecidableEq, Repr

/-- The reflection-driven halves of `encoding/json` for one parameter type
`P` and one result type `R`. -/
structure Codec (Raw P R : Type) where
  /-- The call `json.Marshal(request)`. -/
  marshal : RPCRequest P → Except GoError Bytes
  /-- The call `json.Unmarshal(raw, result)`: the target afterwards, and the error. -/
  unmarshal : Raw → R → R × Option GoError

/-- The standard-library calls of the package that do not depend on the
caller's types. -/
structure Env (σ Raw : Type) where
  /-- The call `url.Parse(node)`, of which only the error is read. -/
  urlParse : String → Option GoError
  /-- The call `http.NewRequest(method, url, body)`. -/
  newRequest : String → String → Bytes → Except GoError HTTPRequest
  /-- The call `httpClient.Do(req)`, bounded by the timeout of the client. -/
  httpDo : σ → HTTPRequest → σ × Except GoError HTTPResponse
  /-- The call `json.NewDecoder(resp.Body).Decode(&rpcResponse)`. -/
  decodeResponse : Bytes → Except GoError (RPCResponse Raw)
  /-- The codec at `AccountParams` and `*AccountsResponse`. -/
  accounts : Codec Raw AccountParams AccountsResponse
  /-- The call `json.Unmarshal([]byte(s), &metadataObj)` into a nil
  `map[string]json.RawMessage`. -/
  unmarshalObject : String → Except GoError (List (String × Raw))
  /-- The call `json.Unmarshal(raw, &nodes)` at `*[]string`: the slice afterwards,
  and the error. -/
  unmarshalStrings : Raw → List String → List String × Option GoError
  /-- The call `json.Unmarshal(raw, &failing)` at `*map[string]string`: the map
  afterwards, and the error. -/
  unmarshalStringMap : Raw → StringMap → StringMap × Option GoError

/-- The function `NewClient`. -/
def NewClient : Client :=
  { Nodes := ["https://api.hive.blog"], FailingNodes := [] }

section Operations

variable {σ Raw P R : Type}

/-- The `for` loop of `SetNodes`: `validNodes` after the remaining `nodes`. -/
def SetNodes.loop (env : Env σ Raw) (failingNodes : StringMap) :
    List String → List String → List String
  | [], validNodes => validNodes
  | node :: rest, validNodes =>
    if failingNodes.has node then
      SetNodes.loop env failingNodes rest validNodes
    else
      match env.urlParse node with
      | none => SetNodes.loop env failingNodes rest (validNodes ++ [node])
      | some _ => SetNodes.loop env failingNodes rest validNodes

/-- The method `Client.SetNodes`. -/
def SetNodes (env : Env σ Raw) (c : Client) (nodes : List String)
    (failingNodes : StringMap) : Client :=
  let validNodes := SetNodes.loop env failingNodes nodes []
  let c := if validNodes.length > 0 then { c with Nodes := validNodes } else c
  { c with FailingNodes := failingNodes }

/-- The outcome of one `callNode`: the world, the target `result` points to,
and the returned error. -/
structure Attempt (σ R : Type) where
  world : σ
  result : R
  err : Option GoError

/-- The method `Client.callNode`.  Reading the response body and the deferred
`resp.Body.Close()` belong to the world transition of `httpDo`. -/
def callNode (env : Env σ Raw) (cd : Codec Raw P R) (node method : String)
    (params : P) (result : R) (w : σ) : Attempt σ R :=
  let request : RPCRequest P :=
    { JSONRPC := "2.0", Method := method, Params := params, ID := 1 }
  match cd.marshal request with
  | .error err => ⟨w, result, some (.wrap "error marshaling request: " err)⟩
  | .ok requestJSON =>
    match env.newRequest "POST" node requestJSON with
    | .error err => ⟨w, result, some (.wrap "error creating request: " err)⟩
    | .ok req =>
      let req := req.setHeader "Content-Type" "application/json"
      match env.httpDo w req with
      | (w, .error err) => ⟨w, result, some (.wrap "error making request: " err)⟩
      | (w, .ok resp) =>
        if resp.StatusCode ≠ StatusOK then
          ⟨w, result, some (.new ("unexpected status code: " ++ toString resp.StatusCode))⟩
        else
          match env.decodeResponse resp.Body with
          | .error err => ⟨w, result, some (.wrap "error decoding response: " err)⟩
          | .ok rpcResponse =>
            match rpcResponse.Error with
            | some rpcError =>
              ⟨w, result, some (.new ("RPC error: " ++ rpcError.Message ++ " (code: "
                ++ toString rpcError.Code ++ ")"))⟩
            | none =>
              match cd.unmarshal rpcResponse.Result result with
              | (result, some err) =>
                ⟨w, result, some (.wrap "error unmarshaling result: " err)⟩
              | (result, none) => ⟨w, result, none⟩

/-- The outcome of `Call`: the world, the target `result` points to, the
returned error, and the nodes `callNode` was invoked on, oldest first. -/
structure CallResult (σ R : Type) where
  world : σ
  result : R
  err : Option GoError
  trace : List String

/-- The `for` loop of `Call` over the remaining nodes, followed by the code
after the loop. -/
def Call.loop (env : Env σ Raw) (cd : Codec Raw P R) (method : String) (params : P) :
    List String → σ → R → Option GoError → List String → CallResult σ R
  | [], w, result, lastErr, trace =>
    match lastErr with
    | some err => ⟨w, result, some (.wrap "all nodes failed: " err), trace⟩
    | none => ⟨w, result, some (.new "no nodes available"), trace⟩
  | node :: rest, w, result, _, trace =>
    let a := callNode env cd node method params result w
    match a.err with
    | none => ⟨a.world, a.result, none, trace ++ [node]⟩
    | some err =>
      Call.loop env cd method params rest a.world a.result (some err) (trace ++ [node])

/-- The method `Client.Call`. -/
def Call (env : Env σ Raw) (cd : Codec Raw P R) (c : Client) (method : String)
    (params : P) (result : R) (w : σ) : CallResult σ R :=
  Call.loop env cd method params c.Nodes w result none []

/-! ## node_updater.go -/

/-- The outcome of `GetNodesFromAccount`: the world, the lines written to
standard output, and the returned pair as an `Except`. -/
structure FetchResult (σ : Type) where
  world : σ
  stdout : List String
  value : Except GoError NodeData

/-- The method `Client.GetNodesFromAccount`. -/
def GetNodesFromAccount (env : Env σ Raw) (c : Client) (accountName : String) (w : σ) :
    FetchResult σ :=
  let params : AccountParams := { Accounts := [accountName] }
  let response : AccountsResponse := { Accounts := [] }
  let r := Call env env.accounts c "database_api.find_accounts" params response w
  match r.err with
  | some err => ⟨r.world, [], .error (.wrap "error fetching account: " err)⟩
  | none =>
    match r.result.Accounts with
    | [] => ⟨r.world, [], .error (.new ("account \x27" ++ accountName ++ "\x27 not found"))⟩
    | account :: _ =>
      match env.unmarshalObject account.JSONMetadata with
      | .error err => ⟨r.world, [], .error (.wrap "error parsing JSON metadata: " err)⟩
      | .ok metadataObj =>
        let nodeData : NodeData := { Nodes := [], FailingNodes := [] }
        match metadataObj.lookup "nodes" with
        | none => ⟨r.world, [], .error (.new "no nodes found in account metadata")⟩
        | some nodesJSON =>
          match env.unmarshalStrings nodesJSON nodeData.Nodes with
          | (_, some err) => ⟨r.world, [], .error (.wrap "error parsing nodes: " err)⟩
          | (nodes, none) =>
            let nodeData := { nodeData with Nodes := nodes }
            match metadataObj.lookup "failing_nodes" with
            | none => ⟨r.world, [], .ok nodeData⟩
            | some failingNodesJSON =>
              match env.unmarshalStringMap failingNodesJSON nodeData.FailingNodes with
              | (failing, some err) =>
                ⟨r.world, ["Warning: error parsing failing_nodes: " ++ err.Error ++ "\n"],
                  .ok { nodeData with FailingNodes := failing }⟩
              | (failing, none) => ⟨r.world, [], .ok { nodeData with FailingNodes := failing }⟩

/-- The outcome of `UpdateNodesFromAccount`: the world, the lines written to
standard output, the client afterwards, and the returned error. -/
structure UpdateResult (σ : Type) where
  world : σ
  stdout : List String
  client : Client
  err : Option GoError

/-- The method `Client.UpdateNodesFromAccount`. -/
def UpdateNodesFromAccount (env : Env σ Raw) (c : Client) (accountName : String) (w : σ) :
    UpdateResult σ :=
  let f := GetNodesFromAccount env c accountName w
  match f.value with
  | .error err => ⟨f.world, f.stdout, c, some err⟩
  | .ok nodeData => ⟨f.world, f.stdout, SetNodes env c nodeData.Nodes nodeData.FailingNodes, none⟩

/-! ## Specification vocabulary -/

/-- The world and the result target after `callNode` has run on every node of
the list in order, whatever the outcomes. -/
def afterAttempts (env : Env σ Raw) (cd : Codec Raw P R) (method : String) (params : P) :
    List String → σ → R → σ × R
  | [], w, result => (w, result)
  | node :: rest, w, result =>
    let a := callNode env cd node method params result w
    afterAttempts env cd method params rest a.world a.result

/-- Whether `callNode`, run on every node of the list in order, fails each time. -/
def allFail (env : Env σ Raw) (cd : Codec Raw P R) (method : String) (params : P) :
    List String → σ → R → Bool
  | [], _, _ => true
  | node :: rest, w, result =>
    let a := callNode env cd node method params result w
    a.err.isSome && allFail env cd method params rest a.world a.result

/-- The candidates `SetNodes` is specified to admit: not a key of the failing
map and accepted by `url.Parse`, in their order, duplicates kept. -/
def admitted (env : Env σ Raw) (nodes : List String) (failingNodes : StringMap) :
    List String :=
  nodes.filter (fun node => !failingNodes.has node && (env.urlParse node).isNone)

/-- Where the `result` argument of `Call` points, seen from the client: what
the pointer reads when the call starts, and the client once the memory pointed
to holds a value.  `Call` writes through this pointer (`json.Unmarshal` in
`callNode`), and nothing keeps a caller from passing `&c.Nodes`,
`&c.FailingNodes` or `c` itself. -/
structure ResultPtr (R : Type) where
  load : Client → R
  store : Client → R → Client

/-- A pointer to memory apart from the client, holding `init`. -/
def ResultPtr.separate {R : Type} (init : R) : ResultPtr R :=
  { load := fun _ => init, store := fun c _ => c }

/-- The pointer `&c.Nodes`. -/
def ResultPtr.toNodes : ResultPtr (List String) :=
  { load := fun c => c.Nodes, store := fun c nodes => { c with Nodes := nodes } }

/-- The pointer `&c.FailingNodes`. -/
def ResultPtr.toFailingNodes : ResultPtr StringMap :=
  { load := fun c => c.FailingNodes, store := fun c failing => { c with FailingNodes := failing } }

/-- The pointer `c`, a `*Client`. -/
def ResultPtr.toClient : ResultPtr Client :=
  { load := fun c => c, store := fun _ c => c }

/-- Writes through the pointer leave the client as it is. -/
def ResultPtr.Separate {R : Type} (p : ResultPtr R) : Prop :=
  ∀ (c : Client) (value : R), p.store c value = c

/-- One use of the client by its owner.  `Call` carries the caller's own
parameter and result types, their codec, and the result pointer. -/
inductive Op (Raw : Type) : Type 1 where
  | setNodes (nodes : List String) (failingNodes : StringMap)
  | call (P R : Type) (cd : Codec Raw P R) (method : String) (params : P)
      (result : ResultPtr R)
  | getNodesFromAccount (accountName : String)
  | updateNodesFromAccount (accountName : String)

/-- The operation is no `Call` through a pointer into the client. -/
def Op.Separate {Raw : Type} : Op Raw → Prop
  | .call _ _ _ _ _ result => result.Separate
  | _ => True

/-- A client in use: the client, the world, and what was written to standard
output. -/
structure Session (σ : Type) where
  client : Client
  world : σ
  stdout : List String

/-- The effect of one operation on a session.  `Call` ranges over the nodes
read on entry (Go evaluates the range expression once) and what it wrote
through the result pointer is in the client afterwards.  For a pointer into
the client this is exact as long as no failed attempt rewrites, in place, the
array the loop is still ranging over; for a separate pointer it is exact. -/
def Op.apply (env : Env σ Raw) (s : Session σ) : Op Raw → Session σ
  | .setNodes nodes failingNodes =>
    { s with client := SetNodes env s.client nodes failingNodes }
  | .call _ _ cd method params result =>
    let r := Call env cd s.client method params (result.load s.client) s.world
    { s with client := result.store s.client r.result, world := r.world }
  | .getNodesFromAccount accountName =>
    let f := GetNodesFromAccount env s.client accountName s.world
    { s with world := f.world, stdout := s.stdout ++ f.stdout }
  | .updateNodesFromAccount accountName =>
    let u := UpdateNodesFromAccount env s.client accountName s.world
    { client := u.client, world := u.world, stdout := s.stdout ++ u.stdout }

/-- A finite sequence of operations, oldest first. -/
def run (env : Env σ Raw) : List (Op Raw) → Session σ → Session σ
  | [], s => s
  | op :: rest, s => run env rest (op.apply env s)

end Operations

/-! ## A concrete environment

`encoding/json`, `net/url` and the network are outside the package; the closed
examples below run the package against the following stand-ins.  The decoders
follow the documented behaviour of `json.Unmarshal`: a JSON value that does
not fit the target type is recorded as an `UnmarshalTypeError`, decoding goes
on, and the earliest such error is returned once the input is consumed, so
the target keeps what was stored. -/

namespace Demo

/-- A JSON value, standing for a well-formed `json.RawMessage`. -/
inductive JSON where
  | null
  | bool (b : Bool)
  | num (n : Int)
  | str (s : String)
  | arr (items : List JSON)
  | obj (members : List (String × JSON))

/-- The JSON kind named in an `UnmarshalTypeError`. -/
def JSON.kind : JSON → String
  | .null => "null"
  | .bool _ => "bool"
  | .num _ => "number"
  | .str _ => "string"
  | .arr _ => "array"
  | .obj _ => "object"

/-- An `*json.UnmarshalTypeError`; the wording of its message varies with the
toolchain and nothing below depends on it. -/
def typeError (value : JSON) (goType : String) : GoError :=
  .new ("json: cannot unmarshal " ++ value.kind ++ " into Go value of type " ++ goType)

/-- The first error saved, as `decodeState.saveError` keeps it. -/
def saveError (saved : Option GoError) (err : GoError) : Option GoError :=
  match saved with
  | some first => some first
  | none => some err

/-- Decoding one JSON value into a fresh Go `string`: the string stored (the
zero value unless the JSON value is a string) and the error recorded. -/
def decodeString : JSON → String × Option GoError
  | .str s => (s, none)
  | .null => ("", none)
  | value => ("", some (typeError value "string"))

/-- The map assignment `m[key] = value`. -/
def setKey (m : StringMap) (key value : String) : StringMap :=
  m.filter (fun kv => kv.1 != key) ++ [(key, value)]

/-- Decoding the members of a JSON object into a `map[string]string`, in
document order: every key is stored, with the zero value when its JSON value
is not a string. -/
def decodeMembers : List (String × JSON) → StringMap → Option GoError →
    StringMap × Option GoError
  | [], m, saved => (m, saved)
  | (key, value) :: rest, m, saved =>
    match decodeString value with
    | (s, none) => decodeMembers rest (setKey m key s) saved
    | (s, some err) => decodeMembers rest (setKey m key s) (saveError saved err)

/-- The call `json.Unmarshal(raw, &m)` at `*map[string]string`. -/
def unmarshalStringMap (raw : JSON) (m : StringMap) : StringMap × Option GoError :=
  match raw with
  | .null => ([], none)
  | .obj members => decodeMembers members m none
  | value => (m, some (typeError value "map[string]string"))

/-- Decoding the items of a JSON array into the elements of a `[]string`. -/
def decodeItems : List JSON → List String → Option GoError → List String × Option GoError
  | [], items, saved => (items, saved)
  | value :: rest, items, saved =>
    match decodeString value with
    | (s, none) => decodeItems rest (items ++ [s]) saved
    | (s, some err) => decodeItems rest (items ++ [s]) (saveError saved err)

/-- The call `json.Unmarshal(raw, &s)` at `*[]string`, for a slice without
spare capacity. -/
def unmarshalStrings (raw : JSON) (target : List String) : List String × Option GoError :=
  match raw with
  | .null => ([], none)
  | .arr items => decodeItems items [] none
  | value => (target, some (typeError value "[]string"))

/-- Decoding one JSON value into a fresh `Account`. -/
def decodeAccount : JSON → Account × Option GoError
  | .obj members =>
    let name := match members.lookup "name" with
      | some value => decodeString value
      | none => ("", none)
    let metadata := match members.lookup "json_metadata" with
      | some value => decodeString value
      | none => ("", none)
    ({ Name := name.1, JSONMetadata := metadata.1 },
      match name.2 with
      | some err => some err
      | none => metadata.2)
  | .null => ({ Name := "", JSONMetadata := "" }, none)
  | value => ({ Name := "", JSONMetadata := "" }, some (typeError value "hive.Account"))

/-- Decoding the items of a JSON array into the elements of a `[]Account`. -/
def decodeAccounts : List JSON → List Account → Option GoError →
    List Account × Option GoError
  | [], items, saved => (items, saved)
  | value :: rest, items, saved =>
    match decodeAccount value with
    | (a, none) => decodeAccounts rest (items ++ [a]) saved
    | (a, some err) => decodeAccounts rest (items ++ [a]) (saveError saved err)

/-- The call `json.Unmarshal(raw, &response)` at `*AccountsResponse`. -/
def unmarshalAccounts (raw : JSON) (response : AccountsResponse) :
    AccountsResponse × Option GoError :=
  match raw with
  | .null => (response, none)
  | .obj members =>
    match members.lookup "accounts" with
    | none => (response, none)
    | some .null => ({ Accounts := [] }, none)
    | some (.arr items) =>
      let r := decodeAccounts items [] none
      ({ Accounts := r.1 }, r.2)
    | some value => (response, some (typeError value "[]hive.Account"))
  | value => (response, some (typeError value "hive.AccountsResponse"))

/-- The request body sent for `find_accounts`: the method and the account
names, one per line. -/
def marshalAccounts (request : RPCRequest AccountParams) : Except GoError Bytes :=
  .ok (String.intercalate "\n" (request.Method :: request.Params.Accounts))

/-- The codec at `AccountParams` and `*AccountsResponse`. -/
def accounts : Codec JSON AccountParams AccountsResponse :=
  { marshal := marshalAccounts, unmarshal := unmarshalAccounts }

/-- The codec at nil parameters and `*[]string`; the request body is the
method. -/
def strings : Codec JSON Unit (List String) :=
  { marshal := fun request => .ok request.Method, unmarshal := unmarshalStrings }

/-- The check of `url.Parse` for ASCII control characters, one of the reasons
it rejects a string. -/
def urlParse (node : String) : Option GoError :=
  if node.data.any (fun ch => ch.toNat < 32 || ch.toNat == 127) then
    some (.new "net/url: invalid control character in URL")
  else none

/-- The call `http.NewRequest`, which parses the URL. -/
def newRequest (method url : String) (body : Bytes) : Except GoError HTTPRequest :=
  match urlParse url with
  | some err => .error err
  | none => .ok { Method := method, URL := url, Body := body, Header := [] }

/-- The network: the URLs requested so far. -/
abbrev World := List String

/-- Registry documents, as the text of `json_metadata`. -/
def metadataValid : String :=
  "\x7b\"nodes\":[\"https://x.example\",\"https://y.example\"]," ++
  "\"failing_nodes\":\x7b\"https://z.example\":\"timeout\"\x7d\x7d"

/-- A registry document without the `nodes` key. -/
def metadataNoNodes : String :=
  "\x7b\"failing_nodes\":\x7b\"https://z.example\":\"timeout\"\x7d\x7d"

/-- A registry document whose `failing_nodes` is a string. -/
def metadataFailingString : String :=
  "\x7b\"nodes\":[\"https://x.example\",\"https://y.example\"],\"failing_nodes\":\"oops\"\x7d"

/-- A registry document whose `failing_nodes` object has a non-string value. -/
def metadataFailingMixed : String :=
  "\x7b\"nodes\":[\"https://x.example\",\"https://y.example\"]," ++
  "\"failing_nodes\":\x7b\"https://y.example\":\"timeout\",\"https://z.example\":5\x7d\x7d"

/-- A registry document served by a node that is not the ledger. -/
def metadataRogue : String :=
  "\x7b\"nodes\":[\"https://rogue.example\"]\x7d"

/-- The two nodes listed by the registry documents. -/
def nodesXY : JSON :=
  .arr [.str "https://x.example", .str "https://y.example"]

/-- The call `json.Unmarshal` at `map[string]json.RawMessage` on the registry
documents above; any other text is reported as a syntax error. -/
def unmarshalObject (text : String) : Except GoError (List (String × JSON)) :=
  if text = metadataValid then
    .ok [("nodes", nodesXY), ("failing_nodes", .obj [("https://z.example", .str "timeout")])]
  else if text = metadataNoNodes then
    .ok [("failing_nodes", .obj [("https://z.example", .str "timeout")])]
  else if text = metadataFailingString then
    .ok [("nodes", nodesXY), ("failing_nodes", .str "oops")]
  else if text = metadataFailingMixed then
    .ok [("nodes", nodesXY),
      ("failing_nodes", .obj [("https://y.example", .str "timeout"), ("https://z.example", .num 5)])]
  else if text = metadataRogue then
    .ok [("nodes", .arr [.str "https://rogue.example"])]
  else .error (.new "invalid character looking for beginning of value")

/-- The `json_metadata` the ledger holds for an account name. -/
def ledger (accountName : String) : Option String :=
  if accountName = "nectarflower" then some metadataValid
  else if accountName = "nonodes" then some metadataNoNodes
  else if accountName = "failing-string" then some metadataFailingString
  else if accountName = "failing-mixed" then some metadataFailingMixed
  else if accountName = "garbage" then some "not json"
  else none

/-- The nodes: `down.example` refuses connections, `busy.example` answers 503,
`broken.example` answers an RPC error, `rogue.example` and `hollow.example`
answer every request with a fixed envelope, every other host serves the ledger
and answers with the request body it received. -/
def httpDo (w : World) (req : HTTPRequest) : World × Except GoError HTTPResponse :=
  (w ++ [req.URL],
    if req.URL = "https://down.example" then .error (.new "dial tcp: connection refused")
    else if req.URL = "https://busy.example" then .ok { StatusCode := 503, Body := "" }
    else if req.URL = "https://broken.example" then .ok { StatusCode := 200, Body := "error" }
    else if req.URL = "https://rogue.example" then .ok { StatusCode := 200, Body := "rogue" }
    else if req.URL = "https://hollow.example" then .ok { StatusCode := 200, Body := "hollow" }
    else .ok { StatusCode := 200, Body := req.Body })

/-- The first line of the request body for `find_accounts`. -/
def findAccountsLine : String := "database_api.find_accounts\n"

/-- The envelope a serving node returns for a request body.  The result of
`rogue.example` is an object whose `accounts` holds one account with the
number 5 as `name` and the rogue registry document as `json_metadata`; the
result of `hollow.example` is the empty object; the ledger has no active votes
and answers the empty array. -/
def decodeResponse (body : Bytes) : Except GoError (RPCResponse JSON) :=
  if body = "error" then
    .ok { JSONRPC := "2.0", Result := .null,
          Error := some { Code := -32000, Message := "internal error" }, ID := 1 }
  else if body = "rogue" then
    .ok { JSONRPC := "2.0",
          Result := .obj [("accounts",
            .arr [.obj [("name", .num 5), ("json_metadata", .str metadataRogue)]])],
          Error := none, ID := 1 }
  else if body = "hollow" then
    .ok { JSONRPC := "2.0", Result := .obj [], Error := none, ID := 1 }
  else if body = "condenser_api.get_active_votes" then
    .ok { JSONRPC := "2.0", Result := .arr [], Error := none, ID := 1 }
  else if findAccountsLine.data.isPrefixOf body.data then
    let accountName := String.mk (body.data.drop findAccountsLine.data.length)
    match ledger accountName with
    | some metadata =>
      .ok { JSONRPC := "2.0",
            Result := .obj [("accounts",
              .arr [.obj [("name", .str accountName), ("json_metadata", .str metadata)]])],
            Error := none, ID := 1 }
    | none =>
      .ok { JSONRPC := "2.0", Result := .obj [("accounts", .arr [])], Error := none, ID := 1 }
  else .error (.new "unexpected end of JSON input")

/-- The environment of the examples. -/
def env : Env World JSON :=
  { urlParse := urlParse
    newRequest := newRequest
    httpDo := httpDo
    decodeResponse := decodeResponse
    accounts := accounts
    unmarshalObject := unmarshalObject
    unmarshalStrings := unmarshalStrings
    unmarshalStringMap := unmarshalStringMap }

/-- The client of the examples: two dead nodes, a node answering an RPC error,
then two serving nodes. -/
def failoverClient : Client :=
  { Nodes := ["https://down.example", "https://busy.example", "https://broken.example",
      "https://api.hive.blog", "https://x.example"],
    FailingNodes := [] }

/-- A client whose first node answers an envelope that decodes only in part and
whose second node answers an empty object. -/
def rogueClient : Client :=
  { Nodes := ["https://rogue.example", "https://hollow.example"], FailingNodes := [] }

/-- The request `find_accounts` for the registry account. -/
def findNectarflower : AccountParams := { Accounts := ["nectarflower"] }

end Demo

/-! ## Lemmas -/

section Lemmas

variable {σ Raw P R : Type}

theorem allFail_append (env : Env σ Raw) (cd : Codec Raw P R) (method : String)
    (params : P) (pre post : List String) (w : σ) (result : R) :
    allFail env cd method params (pre ++ post) w result
      = (allFail env cd method params pre w result
          && allFail env cd method params post
              (afterAttempts env cd method params pre w result).1
              (afterAttempts env cd method params pre w result).2) := by
  induction pre generalizing w result with
  | nil => simp [allFail, afterAttempts]
  | cons node rest ih => simp [allFail, afterAttempts, ih, Bool.and_assoc]

theorem Call.loop_cons_fail (env : Env σ Raw) (cd : Codec Raw P R) (method : String)
    (params : P) (node : String) (rest : List String) (w : σ) (result : R)
    (lastErr : Option GoError) (trace : List String) (err : GoError)
    (h : (callNode env cd node method params result w).err = some err) :
    Call.loop env cd method params (node :: rest) w result lastErr trace
      = Call.loop env cd method params rest
          (callNode env cd node method params result w).world
          (callNode env cd node method params result w).result (some err) (trace ++ [node]) := by
  simp only [Call.loop, h]

theorem Call.loop_cons_ok (env : Env σ Raw) (cd : Codec Raw P R) (method : String)
    (params : P) (node : String) (rest : List String) (w : σ) (result : R)
    (lastErr : Option GoError) (trace : List String)
    (h : (callNode env cd node method params result w).err = none) :
    Call.loop env cd method params (node :: rest) w result lastErr trace
      = ⟨(callNode env cd node method params result w).world,
          (callNode env cd node method params result w).result, none, trace ++ [node]⟩ := by
  simp only [Call.loop, h]

/-- Once a failing run of nodes is consumed, the loop continues on the rest
from the state that run left, with the run appended to the trace and the
error of its last attempt remembered. -/
theorem Call.loop_skip_failing (env : Env σ Raw) (cd : Codec Raw P R) (method : String)
    (params : P) (pre post : List String) (w : σ)
    (result : R) (lastErr : Option GoError) (trace : List String)
    (hfail : allFail env cd method params pre w result = true) :
    ∃ lastErr', (pre = [] → lastErr' = lastErr) ∧
      (∀ init last, pre = init ++ [last] → lastErr' = (callNode env cd last method params
          (afterAttempts env cd method params init w result).2
          (afterAttempts env cd method params init w result).1).err) ∧
      Call.loop env cd method params (pre ++ post) w result lastErr trace
      = Call.loop env cd method params post
          (afterAttempts env cd method params pre w result).1
          (afterAttempts env cd method params pre w result).2 lastErr' (trace ++ pre) := by
  induction pre generalizing w result lastErr trace with
  | nil =>
    refine ⟨lastErr, fun _ => rfl, ?_, by simp [afterAttempts]⟩
    intro init last h
    simp at h
  | cons head rest ih =>
    simp only [allFail, Bool.and_eq_true, Option.isSome_iff_exists] at hfail
    obtain ⟨⟨err, herr⟩, hrest⟩ := hfail
    obtain ⟨lastErr', hnil, hlast, h⟩ := ih (callNode env cd head method params result w).world
      (callNode env cd head method params result w).result (some err) (trace ++ [head]) hrest
    refine ⟨lastErr', fun hc => by simp at hc, ?_, ?_⟩
    · intro init last hsplit
      cases init with
      | nil =>
        simp only [List.nil_append, List.cons.injEq] at hsplit
        obtain ⟨rfl, rfl⟩ := hsplit
        rw [hnil rfl, afterAttempts, herr]
      | cons head' init' =>
        simp only [List.cons_append, List.cons.injEq] at hsplit
        obtain ⟨rfl, rfl⟩ := hsplit
        rw [hlast init' last rfl]
        rfl
    · rw [List.cons_append, Call.loop_cons_fail env cd method params head _ w result lastErr
        trace err herr, h]
      simp [afterAttempts]

/-- After at least one failure the loop never reports an empty node list. -/
theorem Call.loop_after_failure (env : Env σ Raw) (cd : Codec Raw P R) (method : String)
    (params : P) (nodes : List String) (w : σ) (result : R) (err : GoError)
    (trace : List String) :
    (Call.loop env cd method params nodes w result (some err) trace).err = none
      ∨ ∃ cause, (Call.loop env cd method params nodes w result (some err) trace).err
          = some (.wrap "all nodes failed: " cause) := by
  induction nodes generalizing w result err trace with
  | nil => exact Or.inr ⟨err, rfl⟩
  | cons node rest ih =>
    simp only [Call.loop]
    cases h : (callNode env cd node method params result w).err with
    | none => exact Or.inl rfl
    | some err' => exact ih _ _ err' _

/-- On a non-empty node list `Call` succeeds or reports that all nodes failed. -/
theorem Call_err_of_Nodes_ne_nil (env : Env σ Raw) (cd : Codec Raw P R) (c : Client)
    (method : String) (params : P) (result : R) (w : σ) (hne : c.Nodes ≠ []) :
    (Call env cd c method params result w).err = none
      ∨ ∃ cause, (Call env cd c method params result w).err
          = some (.wrap "all nodes failed: " cause) := by
  cases hn : c.Nodes with
  | nil => exact absurd hn hne
  | cons node rest =>
    rw [Call, hn]
    cases h : (callNode env cd node method params result w).err with
    | none =>
      rw [Call.loop_cons_ok env cd method params node rest w result none [] h]
      exact Or.inl rfl
    | some err =>
      rw [Call.loop_cons_fail env cd method params node rest w result none [] err h]
      exact Call.loop_after_failure env cd method params rest _ _ err _

/-- A successful `callNode` went through every step: the request was
marshalled, built and sent, the response had status 200 and decoded to an
envelope without an RPC error, and the envelope's result was unmarshalled into
the result target without error. -/
theorem callNode_ok (env : Env σ Raw) (cd : Codec Raw P R) (node method : String)
    (params : P) (result : R) (w : σ)
    (h : (callNode env cd node method params result w).err = none) :
    ∃ requestJSON req resp rpcResponse,
      cd.marshal { JSONRPC := "2.0", Method := method, Params := params, ID := 1 }
        = .ok requestJSON
      ∧ env.newRequest "POST" node requestJSON = .ok req
      ∧ env.httpDo w (req.setHeader "Content-Type" "application/json")
        = ((callNode env cd node method params result w).world, .ok resp)
      ∧ resp.StatusCode = StatusOK
      ∧ env.decodeResponse resp.Body = .ok rpcResponse
      ∧ rpcResponse.Error = none
      ∧ cd.unmarshal rpcResponse.Result result
        = ((callNode env cd node method params result w).result, none) := by
  unfold callNode at h ⊢
  simp only at h ⊢
  split at h
  · simp at h
  · rename_i requestJSON hm
    split at h
    · simp at h
    · rename_i req hr
      split at h
      · simp at h
      · rename_i w' resp hd
        split at h
        · simp at h
        · rename_i hs
          split at h
          · simp at h
          · rename_i rpcResponse hdec
            split at h
            · simp at h
            · rename_i herr
              split at h
              · simp at h
              · rename_i result' hu
                refine ⟨requestJSON, req, resp, rpcResponse, hm, ?_⟩
                simp only [hm, hr, hd, hdec, herr, hu, hs]
                simp at hs
                simp [hs]

/-- The stand-in decoder stores nothing when `failing_nodes` is a JSON string. -/
theorem Demo.unmarshalStringMap_str (s : String) (m : StringMap) :
    (Demo.unmarshalStringMap (.str s) m).1 = m
    ∧ (Demo.unmarshalStringMap (.str s) m).2.isSome = true :=
  ⟨rfl, rfl⟩

theorem allNodesFailed_message_ne (cause : GoError) :
    (GoError.wrap "all nodes failed: " cause).Error ≠ "no nodes available" := by
  intro h
  have h2 := congrArg String.data h
  simp [GoError.Error, String.data_append] at h2

end Lemmas

/-! ## Call -/

section CallClaims

variable {σ Raw P R : Type}

/-- The failover order of `Call`: when the node list is `pre ++ e :: post`,
every attempt on the nodes of `pre` fails and the attempt on `e` that follows
them succeeds, `Call` returns a nil error, has invoked `callNode` exactly
`pre.length + 1` times, on the nodes of `pre` and then on `e`, in that order
and on no node of `post`.  The result target is the one the attempt on `e`
left: the result of the envelope that `e` answered, unmarshalled into the
target as the failed attempts left it, not as the caller passed it. -/
theorem Call_first_success_wins (env : Env σ Raw) (cd : Codec Raw P R) (c : Client)
    (method : String) (params : P) (result : R) (w : σ)
    (pre : List String) (e : String) (post : List String)
    (hnodes : c.Nodes = pre ++ e :: post)
    (hfail : allFail env cd method params pre w result = true)
    (hok : (callNode env cd e method params
        (afterAttempts env cd method params pre w result).2
        (afterAttempts env cd method params pre w result).1).err = none) :
    (Call env cd c method params result w).err = none
    ∧ (Call env cd c method params result w).trace = pre ++ [e]
    ∧ (Call env cd c method params result w).trace.length = pre.length + 1
    ∧ (Call env cd c method params result w).result
        = (callNode env cd e method params
            (afterAttempts env cd method params pre w result).2
            (afterAttempts env cd method params pre w result).1).result
    ∧ (Call env cd c method params result w).world
        = (callNode env cd e method params
            (afterAttempts env cd method params pre w result).2
            (afterAttempts env cd method params pre w result).1).world
    ∧ ∃ requestJSON req resp rpcResponse,
        cd.marshal { JSONRPC := "2.0", Method := method, Params := params, ID := 1 }
          = .ok requestJSON
        ∧ env.newRequest "POST" e requestJSON = .ok req
        ∧ env.httpDo (afterAttempts env cd method params pre w result).1
            (req.setHeader "Content-Type" "application/json")
          = ((Call env cd c method params result w).world, .ok resp)
        ∧ resp.StatusCode = StatusOK
        ∧ env.decodeResponse resp.Body = .ok rpcResponse
        ∧ rpcResponse.Error = none
        ∧ cd.unmarshal rpcResponse.Result (afterAttempts env cd method params pre w result).2
          = ((Call env cd c method params result w).result, none) := by
  obtain ⟨lastErr', -, -, h⟩ :=
    Call.loop_skip_failing env cd method params pre (e :: post) w result none [] hfail
  have hcall : Call env cd c method params result w
      = ⟨(callNode env cd e method params
            (afterAttempts env cd method params pre w result).2
            (afterAttempts env cd method params pre w result).1).world,
          (callNode env cd e method params
            (afterAttempts env cd method params pre w result).2
            (afterAttempts env cd method params pre w result).1).result,
          none, [] ++ pre ++ [e]⟩ := by
    rw [Call, hnodes, h, Call.loop_cons_ok env cd method params e post _ _ lastErr' _ hok]
  rw [hcall]
  refine ⟨rfl, by simp, by simp, rfl, rfl, ?_⟩
  exact callNode_ok env cd e method params _ _ hok

/-- C2. Every endpoint fails: on a non-empty node list on which every attempt
fails, `Call` returns the error `all nodes failed: ` wrapping exactly the
error of the attempt on the last node, and has invoked `callNode` once per
list position, in list order: its trace is the node list itself. -/
theorem Call_all_nodes_failed (env : Env σ Raw) (cd : Codec Raw P R) (c : Client)
    (method : String) (params : P) (result : R) (w : σ)
    (hne : c.Nodes ≠ [])
    (hfail : allFail env cd method params c.Nodes w result = true) :
    ∃ cause,
      (callNode env cd (c.Nodes.getLast hne) method params
        (afterAttempts env cd method params c.Nodes.dropLast w result).2
        (afterAttempts env cd method params c.Nodes.dropLast w result).1).err = some cause
      ∧ (Call env cd c method params result w).err = some (.wrap "all nodes failed: " cause)
      ∧ (Call env cd c method params result w).err.bind GoError.Unwrap = some cause
      ∧ (Call env cd c method params result w).trace = c.Nodes
      ∧ (Call env cd c method params result w).trace.length = c.Nodes.length := by
  obtain ⟨lastErr', -, hlast, h⟩ :=
    Call.loop_skip_failing env cd method params c.Nodes [] w result none [] hfail
  have hsplit : c.Nodes = c.Nodes.dropLast ++ [c.Nodes.getLast hne] :=
    (List.dropLast_append_getLast hne).symm
  have hlast' := hlast _ _ hsplit
  have hsome : ∃ cause, lastErr' = some cause := by
    rw [hsplit, allFail_append] at hfail
    simp only [allFail, Bool.and_true, Bool.and_eq_true, Option.isSome_iff_exists] at hfail
    obtain ⟨-, cause, hc⟩ := hfail
    exact ⟨cause, by rw [hlast', hc]⟩
  obtain ⟨cause, hcause⟩ := hsome
  have hcall : Call env cd c method params result w
      = ⟨(afterAttempts env cd method params c.Nodes w result).1,
          (afterAttempts env cd method params c.Nodes w result).2,
          some (.wrap "all nodes failed: " cause), [] ++ c.Nodes⟩ := by
    have h' := h
    rw [List.append_nil, hcause] at h'
    rw [Call, h']
    rfl
  refine ⟨cause, by rw [← hlast', hcause], ?_⟩
  rw [hcall]
  simp [GoError.Unwrap]

/-- C3. Empty node list: `Call` returns the error `no nodes available` if and
only if `Nodes` is empty, as an error value and as an error message alike; and
on an empty list it invokes `callNode` on nothing and leaves the world and the
result target as they were. -/
theorem Call_no_nodes_available_iff (env : Env σ Raw) (cd : Codec Raw P R) (c : Client)
    (method : String) (params : P) (result : R) (w : σ) :
    ((Call env cd c method params result w).err = some (.new "no nodes available")
        ↔ c.Nodes = [])
    ∧ ((Call env cd c method params result w).err.map GoError.Error
        = some "no nodes available" ↔ c.Nodes = [])
    ∧ (c.Nodes = [] →
        (Call env cd c method params result w).trace = []
        ∧ (Call env cd c method params result w).world = w
        ∧ (Call env cd c method params result w).result = result) := by
  cases hn : c.Nodes with
  | nil =>
    have hcall : Call env cd c method params result w
        = ⟨w, result, some (.new "no nodes available"), []⟩ := by
      rw [Call, hn]; rfl
    rw [hcall]
    simp [GoError.Error]
  | cons node rest =>
    have hcases := Call_err_of_Nodes_ne_nil env cd c method params result w (by simp [hn])
    rcases hcases with h | ⟨cause, h⟩
    · simp [h]
    · rw [h]
      have := allNodesFailed_message_ne cause
      simp [this]

end CallClaims

section CallExamples

open Demo

/-- Three failing nodes, then `api.hive.blog` answers and `x.example` is never
contacted. -/
theorem Call_first_success_wins_witness :
    (Call env accounts failoverClient "database_api.find_accounts"
        ({ Accounts := ["nectarflower"] } : AccountParams) ({ Accounts := [] } : AccountsResponse)
        []).trace
      = ["https://down.example", "https://busy.example", "https://broken.example",
          "https://api.hive.blog"] :=
  (Call_first_success_wins env accounts failoverClient "database_api.find_accounts"
    { Accounts := ["nectarflower"] } { Accounts := [] } []
    ["https://down.example", "https://busy.example", "https://broken.example"]
    "https://api.hive.blog" ["https://x.example"] rfl (by decide) (by decide)).2.1

/-- Witness of C2: a client whose three nodes all fail. -/
theorem Call_all_nodes_failed_witness :
    ∃ cause,
      (callNode env accounts "https://broken.example" "database_api.find_accounts"
        ({ Accounts := ["nectarflower"] } : AccountParams)
        (afterAttempts env accounts "database_api.find_accounts"
          ({ Accounts := ["nectarflower"] } : AccountParams)
          ["https://down.example", "https://busy.example"] []
          ({ Accounts := [] } : AccountsResponse)).2
        (afterAttempts env accounts "database_api.find_accounts"
          ({ Accounts := ["nectarflower"] } : AccountParams)
          ["https://down.example", "https://busy.example"] []
          ({ Accounts := [] } : AccountsResponse)).1).err = some cause
      ∧ (Call env accounts { failoverClient with Nodes := failoverClient.Nodes.take 3 }
          "database_api.find_accounts" ({ Accounts := ["nectarflower"] } : AccountParams)
          ({ Accounts := [] } : AccountsResponse) []).err
        = some (.wrap "all nodes failed: " cause) := by
  obtain ⟨cause, h1, h2, -⟩ :=
    Call_all_nodes_failed env accounts
      { failoverClient with Nodes := failoverClient.Nodes.take 3 }
      "database_api.find_accounts" { Accounts := ["nectarflower"] } { Accounts := [] } []
      (by decide) (by decide)
  exact ⟨cause, h1, h2⟩

/-- Witness of C3: a client without nodes contacts nobody. -/
theorem Call_no_nodes_available_witness :
    (Call env accounts { NewClient with Nodes := [] } "database_api.find_accounts"
        ({ Accounts := ["nectarflower"] } : AccountParams) ({ Accounts := [] } : AccountsResponse)
        []).trace = []
    ∧ (Call env accounts { NewClient with Nodes := [] } "database_api.find_accounts"
        ({ Accounts := ["nectarflower"] } : AccountParams) ({ Accounts := [] } : AccountsResponse)
        []).world = [] :=
  ⟨((Call_no_nodes_available_iff env accounts { NewClient with Nodes := [] }
      "database_api.find_accounts" { Accounts := ["nectarflower"] } { Accounts := [] } []).2.2
      rfl).1,
   ((Call_no_nodes_available_iff env accounts { NewClient with Nodes := [] }
      "database_api.find_accounts" { Accounts := ["nectarflower"] } { Accounts := [] } []).2.2
      rfl).2.1⟩

/-- C1, on the code: the first node answers an envelope whose result decodes
in part (the account is stored, its `name` is no string), so its attempt
fails; the second node answers the empty object and its attempt succeeds.
`Call` returns nil after the two attempts, and the caller's response holds the
account the failed node wrote, while the attempt on the second node alone
delivers no account. -/
theorem Call_delivers_failed_node_result :
    (callNode env accounts "https://rogue.example" "database_api.find_accounts"
        findNectarflower ({ Accounts := [] } : AccountsResponse) []).err.isSome = true
    ∧ (callNode env accounts "https://hollow.example" "database_api.find_accounts"
        findNectarflower ({ Accounts := [] } : AccountsResponse) []).err = none
    ∧ (callNode env accounts "https://hollow.example" "database_api.find_accounts"
        findNectarflower ({ Accounts := [] } : AccountsResponse) []).result
      = { Accounts := [] }
    ∧ (Call env accounts rogueClient "database_api.find_accounts" findNectarflower
        ({ Accounts := [] } : AccountsResponse) []).err = none
    ∧ (Call env accounts rogueClient "database_api.find_accounts" findNectarflower
        ({ Accounts := [] } : AccountsResponse) []).trace
      = ["https://rogue.example", "https://hollow.example"]
    ∧ (Call env accounts rogueClient "database_api.find_accounts" findNectarflower
        ({ Accounts := [] } : AccountsResponse) []).result
      = { Accounts := [{ Name := "", JSONMetadata := metadataRogue }] }
    ∧ (GetNodesFromAccount env rogueClient "nectarflower" []).value
      = .ok { Nodes := ["https://rogue.example"], FailingNodes := [] } := by
  refine ⟨by decide, by decide, by decide, by decide, by decide, by decide, rfl⟩

end CallExamples

/-! ## SetNodes -/

section SetNodesClaims

variable {σ Raw : Type}

theorem SetNodes.loop_eq (env : Env σ Raw) (failingNodes : StringMap) (nodes : List String)
    (validNodes : List String) :
    SetNodes.loop env failingNodes nodes validNodes
      = validNodes ++ admitted env nodes failingNodes := by
  induction nodes generalizing validNodes with
  | nil => simp [SetNodes.loop, admitted]
  | cons node rest ih =>
    unfold SetNodes.loop
    cases hf : failingNodes.has node with
    | true => simp [ih, admitted, hf]
    | false =>
      cases hu : env.urlParse node with
      | none => simp [ih, admitted, hf, hu]
      | some err => simp [ih, admitted, hf, hu]

theorem SetNodes_Nodes (env : Env σ Raw) (c : Client) (nodes : List String)
    (failingNodes : StringMap) :
    (SetNodes env c nodes failingNodes).Nodes
      = if admitted env nodes failingNodes = [] then c.Nodes
        else admitted env nodes failingNodes := by
  simp only [SetNodes, SetNodes.loop_eq, List.nil_append]
  cases h : admitted env nodes failingNodes with
  | nil => simp
  | cons node rest => simp

/-- C4, amended. When at least one candidate is admitted, no key of the
failing map is left in `Nodes`; when none is admitted, `Nodes` is the prior
list, whatever it holds. -/
theorem SetNodes_excludes_failing_when_admitted (env : Env σ Raw) (c : Client)
    (nodes : List String) (failingNodes : StringMap) :
    (admitted env nodes failingNodes ≠ [] →
        ∀ node ∈ (SetNodes env c nodes failingNodes).Nodes, failingNodes.has node = false)
    ∧ (admitted env nodes failingNodes = [] →
        (SetNodes env c nodes failingNodes).Nodes = c.Nodes) := by
  rw [SetNodes_Nodes]
  constructor
  · intro h node hmem
    rw [if_neg h] at hmem
    have := (List.mem_filter.mp hmem).2
    simp only [Bool.and_eq_true, Bool.not_eq_true'] at this
    exact this.1
  · intro h
    rw [if_pos h]

/-- C5. The postcondition of `SetNodes` on `Nodes`: the admitted candidates
(not a key of the failing map, accepted by `url.Parse`, original order,
duplicates kept) when there is at least one, the prior `Nodes` otherwise. -/
theorem SetNodes_Nodes_postcondition (env : Env σ Raw) (c : Client) (nodes : List String)
    (failingNodes : StringMap) :
    (SetNodes env c nodes failingNodes).Nodes
      = if nodes.filter (fun node => !failingNodes.has node && (env.urlParse node).isNone) = []
        then c.Nodes
        else nodes.filter (fun node => !failingNodes.has node && (env.urlParse node).isNone) :=
  SetNodes_Nodes env c nodes failingNodes

/-- C6. The failing map is always replaced: after `SetNodes` the client's
`FailingNodes` is the input map, whatever the prior state and the candidates. -/
theorem SetNodes_FailingNodes (env : Env σ Raw) (c : Client) (nodes : List String)
    (failingNodes : StringMap) :
    (SetNodes env c nodes failingNodes).FailingNodes = failingNodes := by
  simp only [SetNodes]

end SetNodesClaims

section SetNodesExamples

open Demo

/-- C4 as stated fails: the default node, offered as a candidate and listed as
failing, is still in `Nodes` afterwards, because nothing was admitted and the
prior list was kept. -/
theorem SetNodes_keeps_failing_candidate :
    ¬ (∀ node ∈ ["https://api.hive.blog"],
        StringMap.has [("https://api.hive.blog", "timeout")] node = true →
        node ∉ (SetNodes env NewClient ["https://api.hive.blog"]
                  [("https://api.hive.blog", "timeout")]).Nodes) := by
  decide

/-- Witness of the amended C4: with `x` and `y` admitted, the failing `z` is out. -/
theorem SetNodes_excludes_failing_when_admitted_witness :
    ∀ node ∈ (SetNodes env NewClient
          ["https://x.example", "https://z.example", "https://y.example"]
          [("https://z.example", "timeout")]).Nodes,
        StringMap.has [("https://z.example", "timeout")] node = false :=
  (SetNodes_excludes_failing_when_admitted env NewClient
    ["https://x.example", "https://z.example", "https://y.example"]
    [("https://z.example", "timeout")]).1 (by decide)

end SetNodesExamples

/-! ## GetNodesFromAccount and UpdateNodesFromAccount -/

section RegistryClaims

variable {σ Raw : Type}

/-- The five ways `GetNodesFromAccount` fails. -/
theorem GetNodesFromAccount_error_cases (env : Env σ Raw) (c : Client) (accountName : String)
    (w : σ) (err : GoError)
    (h : (GetNodesFromAccount env c accountName w).value = .error err) :
    (∃ cause, err = .wrap "error fetching account: " cause)
    ∨ err = .new ("account \x27" ++ accountName ++ "\x27 not found")
    ∨ (∃ cause, err = .wrap "error parsing JSON metadata: " cause)
    ∨ err = .new "no nodes found in account metadata"
    ∨ (∃ cause, err = .wrap "error parsing nodes: " cause) := by
  unfold GetNodesFromAccount at h
  simp only at h
  split at h
  · simp only [Except.error.injEq] at h
    exact Or.inl ⟨_, h.symm⟩
  · split at h
    · simp only [Except.error.injEq] at h
      exact Or.inr (Or.inl h.symm)
    · split at h
      · simp only [Except.error.injEq] at h
        exact Or.inr (Or.inr (Or.inl ⟨_, h.symm⟩))
      · split at h
        · simp only [Except.error.injEq] at h
          exact Or.inr (Or.inr (Or.inr (Or.inl h.symm)))
        · split at h
          · simp only [Except.error.injEq] at h
            exact Or.inr (Or.inr (Or.inr (Or.inr ⟨_, h.symm⟩)))
          · split at h
            · simp at h
            · split at h <;> simp at h

/-- C7. A failed refresh is atomic: whenever `GetNodesFromAccount` fails,
`UpdateNodesFromAccount` returns that same error and leaves the client, its
`Nodes` and its `FailingNodes`, as it was before the call. -/
theorem UpdateNodesFromAccount_failed_refresh_atomic (env : Env σ Raw) (c : Client)
    (accountName : String) (w : σ) (err : GoError)
    (h : (GetNodesFromAccount env c accountName w).value = .error err) :
    (UpdateNodesFromAccount env c accountName w).err = some err
    ∧ (UpdateNodesFromAccount env c accountName w).client.Nodes = c.Nodes
    ∧ (UpdateNodesFromAccount env c accountName w).client.FailingNodes = c.FailingNodes := by
  simp only [UpdateNodesFromAccount, h, and_self]

/-- What `GetNodesFromAccount` returns when `json.Unmarshal` reports an error
for `failing_nodes`: it succeeds, prints one warning, and returns the decoded
node list together with the map as the failed decode left it; the map is not
reset. -/
theorem GetNodesFromAccount_undecodable_failing_nodes (env : Env σ Raw) (c : Client)
    (accountName : String) (w : σ) (account : Account) (others : List Account)
    (metadataObj : List (String × Raw)) (nodesJSON failingNodesJSON : Raw)
    (nodes : List String) (err : GoError)
    (hcall : (Call env env.accounts c "database_api.find_accounts"
        ({ Accounts := [accountName] } : AccountParams) ({ Accounts := [] } : AccountsResponse)
        w).err = none)
    (haccount : (Call env env.accounts c "database_api.find_accounts"
        ({ Accounts := [accountName] } : AccountParams) ({ Accounts := [] } : AccountsResponse)
        w).result.Accounts = account :: others)
    (hmetadata : env.unmarshalObject account.JSONMetadata = .ok metadataObj)
    (hnodesJSON : metadataObj.lookup "nodes" = some nodesJSON)
    (hnodes : env.unmarshalStrings nodesJSON [] = (nodes, none))
    (hfailingJSON : metadataObj.lookup "failing_nodes" = some failingNodesJSON)
    (hfailing : (env.unmarshalStringMap failingNodesJSON []).2 = some err) :
    (GetNodesFromAccount env c accountName w).value
      = .ok { Nodes := nodes, FailingNodes := (env.unmarshalStringMap failingNodesJSON []).1 }
    ∧ (GetNodesFromAccount env c accountName w).stdout
      = ["Warning: error parsing failing_nodes: " ++ err.Error ++ "\n"] := by
  unfold GetNodesFromAccount
  simp only [hcall, haccount, hmetadata, hnodesJSON, hnodes, hfailingJSON]
  cases hu : env.unmarshalStringMap failingNodesJSON [] with
  | mk failing e =>
    rw [hu] at hfailing
    simp only at hfailing
    subst hfailing
    simp

/-- C9, amended. When the underlying `Call` fails with `e`, `GetNodesFromAccount`
returns no record and the error `error fetching account: ` wrapping `e`: `e`
is its cause under `errors.Unwrap` and the tail of its message. -/
theorem GetNodesFromAccount_wraps_Call_failure (env : Env σ Raw) (c : Client)
    (accountName : String) (w : σ) (e : GoError)
    (hcall : (Call env env.accounts c "database_api.find_accounts"
        ({ Accounts := [accountName] } : AccountParams) ({ Accounts := [] } : AccountsResponse)
        w).err = some e) :
    (GetNodesFromAccount env c accountName w).value
      = .error (.wrap "error fetching account: " e)
    ∧ (GoError.wrap "error fetching account: " e).Unwrap = some e
    ∧ (GoError.wrap "error fetching account: " e).Error
        = "error fetching account: " ++ e.Error := by
  unfold GetNodesFromAccount
  simp only [hcall, GoError.Unwrap, GoError.Error, and_self]

end RegistryClaims

section RegistryExamples

open Demo

/-- Witness of C7, the scenario of a registry document without `nodes`: the
refresh fails and the client is the one `NewClient` made. -/
theorem UpdateNodesFromAccount_failed_refresh_atomic_witness :
    (UpdateNodesFromAccount env NewClient "nonodes" []).err
      = some (.new "no nodes found in account metadata")
    ∧ (UpdateNodesFromAccount env NewClient "nonodes" []).client.Nodes
      = ["https://api.hive.blog"]
    ∧ (UpdateNodesFromAccount env NewClient "nonodes" []).client.FailingNodes = [] :=
  UpdateNodesFromAccount_failed_refresh_atomic env NewClient "nonodes" []
    (.new "no nodes found in account metadata") rfl

/-- The scenario of a well-formed registry document: the refresh succeeds and
the client holds the listed nodes and the listed failing map. -/
theorem UpdateNodesFromAccount_registry_scenario :
    (UpdateNodesFromAccount env NewClient "nectarflower" []).err = none
    ∧ (UpdateNodesFromAccount env NewClient "nectarflower" []).client
      = { Nodes := ["https://x.example", "https://y.example"],
          FailingNodes := [("https://z.example", "timeout")] } := by
  decide

/-- C8, on the code: for a `failing_nodes` object with one string value and one
number the decode reports an error, and the map `GetNodesFromAccount` returns
is not empty: it holds what the decoder stored.  `UpdateNodesFromAccount` then
drops `y.example` from the nodes and records `z.example` without a reason. -/
theorem GetNodesFromAccount_keeps_stored_failing_nodes :
    (unmarshalStringMap
        (.obj [("https://y.example", .str "timeout"), ("https://z.example", .num 5)]) []).2.isSome
      = true
    ∧ (GetNodesFromAccount env NewClient "failing-mixed" []).value
      = .ok { Nodes := ["https://x.example", "https://y.example"],
              FailingNodes := [("https://y.example", "timeout"), ("https://z.example", "")] }
    ∧ (GetNodesFromAccount env NewClient "failing-mixed" []).value
      ≠ .ok { Nodes := ["https://x.example", "https://y.example"], FailingNodes := [] }
    ∧ (UpdateNodesFromAccount env NewClient "failing-mixed" []).client
      = { Nodes := ["https://x.example"],
          FailingNodes := [("https://y.example", "timeout"), ("https://z.example", "")] } := by
  refine ⟨rfl, rfl, ?_, by decide⟩
  have h : (GetNodesFromAccount env NewClient "failing-mixed" []).value
      = .ok { Nodes := ["https://x.example", "https://y.example"],
              FailingNodes := [("https://y.example", "timeout"), ("https://z.example", "")] } :=
    rfl
  rw [h]
  simp

/-- For a `failing_nodes` that is a string the stand-in decoder stores nothing,
and the returned map is empty. -/
theorem GetNodesFromAccount_failing_nodes_string :
    (GetNodesFromAccount env NewClient "failing-string" []).value
      = .ok { Nodes := ["https://x.example", "https://y.example"], FailingNodes := [] } :=
  rfl

/-- C9 as stated fails: on a client without nodes `Call` fails with
`no nodes available`, and `GetNodesFromAccount` returns another error. -/
theorem GetNodesFromAccount_does_not_return_Call_error :
    (Call env env.accounts { NewClient with Nodes := [] } "database_api.find_accounts"
        ({ Accounts := ["nectarflower"] } : AccountParams) ({ Accounts := [] } : AccountsResponse)
        []).err = some (.new "no nodes available")
    ∧ (GetNodesFromAccount env { NewClient with Nodes := [] } "nectarflower" []).value
      ≠ .error (.new "no nodes available") := by
  refine ⟨rfl, ?_⟩
  have h : (GetNodesFromAccount env { NewClient with Nodes := [] } "nectarflower" []).value
      = .error (.wrap "error fetching account: " (.new "no nodes available")) := rfl
  rw [h]
  simp

/-- Witness of the amended C9, on a client whose only node refuses connections. -/
theorem GetNodesFromAccount_wraps_Call_failure_witness :
    (GetNodesFromAccount env { NewClient with Nodes := ["https://down.example"] }
        "nectarflower" []).value
      = .error (.wrap "error fetching account: " (.wrap "all nodes failed: "
          (.wrap "error making request: " (.new "dial tcp: connection refused")))) :=
  (GetNodesFromAccount_wraps_Call_failure env { NewClient with Nodes := ["https://down.example"] }
    "nectarflower" [] _ rfl).1

end RegistryExamples

/-! ## The working node set -/

section Invariant

variable {σ Raw : Type}

theorem SetNodes_Nodes_ne_nil (env : Env σ Raw) (c : Client) (nodes : List String)
    (failingNodes : StringMap) (h : c.Nodes ≠ []) :
    (SetNodes env c nodes failingNodes).Nodes ≠ [] := by
  rw [SetNodes_Nodes]
  split
  · exact h
  · assumption

theorem UpdateNodesFromAccount_Nodes_ne_nil (env : Env σ Raw) (c : Client)
    (accountName : String) (w : σ) (h : c.Nodes ≠ []) :
    (UpdateNodesFromAccount env c accountName w).client.Nodes ≠ [] := by
  unfold UpdateNodesFromAccount
  simp only
  split
  · exact h
  · exact SetNodes_Nodes_ne_nil env c _ _ h

theorem Op.apply_Nodes_ne_nil (env : Env σ Raw) (s : Session σ) (op : Op Raw)
    (hsep : op.Separate) (h : s.client.Nodes ≠ []) : (op.apply env s).client.Nodes ≠ [] := by
  cases op with
  | setNodes nodes failingNodes => exact SetNodes_Nodes_ne_nil env s.client _ _ h
  | call P R cd method params result =>
    have hstore : result.Separate := hsep
    simp only [Op.apply, hstore s.client]
    exact h
  | getNodesFromAccount accountName => exact h
  | updateNodesFromAccount accountName =>
    exact UpdateNodesFromAccount_Nodes_ne_nil env s.client accountName s.world h

theorem run_Nodes_ne_nil (env : Env σ Raw) (ops : List (Op Raw)) (s : Session σ)
    (hsep : ∀ op ∈ ops, op.Separate) (h : s.client.Nodes ≠ []) :
    (run env ops s).client.Nodes ≠ [] := by
  induction ops generalizing s with
  | nil => exact h
  | cons op rest ih =>
    exact ih _ (fun op' hmem => hsep op' (List.mem_cons_of_mem _ hmem))
      (Op.apply_Nodes_ne_nil env s op (hsep op (List.mem_cons_self _ _)) h)

/-- C10, amended. The working node set is never emptied by operations that keep
their result pointers out of the client: after any finite sequence of
`SetNodes`, `Call`, `GetNodesFromAccount` and `UpdateNodesFromAccount` on a
client made by `NewClient`, in any environment and world, in which no `Call`
writes through a pointer into the client, `Nodes` is non-empty, and `Call` on
that client does not return `no nodes available`. -/
theorem Nodes_never_emptied_by_separate_calls (env : Env σ Raw) (ops : List (Op Raw)) (w : σ)
    (hsep : ∀ op ∈ ops, op.Separate) :
    (run env ops ⟨NewClient, w, []⟩).client.Nodes ≠ []
    ∧ ∀ (P R : Type) (cd : Codec Raw P R) (method : String) (params : P) (result : R),
        (Call env cd (run env ops ⟨NewClient, w, []⟩).client method params result
            (run env ops ⟨NewClient, w, []⟩).world).err ≠ some (.new "no nodes available")
        ∧ (Call env cd (run env ops ⟨NewClient, w, []⟩).client method params result
            (run env ops ⟨NewClient, w, []⟩).world).err.map GoError.Error
          ≠ some "no nodes available" := by
  have hne : (run env ops ⟨NewClient, w, []⟩).client.Nodes ≠ [] :=
    run_Nodes_ne_nil env ops _ hsep (by simp [NewClient])
  refine ⟨hne, fun P R cd method params result => ?_⟩
  rcases Call_err_of_Nodes_ne_nil env cd _ method params result
      (run env ops ⟨NewClient, w, []⟩).world hne with h | ⟨cause, h⟩
  · simp [h]
  · rw [h]
    have := allNodesFailed_message_ne cause
    simp [this]

end Invariant

section InvariantExamples

open Demo

/-- C10 as stated fails: on the client `NewClient` made, one `Call` with
`&c.Nodes` as its result pointer, answered with the empty array, leaves `Nodes`
empty, and the next `Call` returns `no nodes available`. -/
theorem Call_into_Nodes_empties_Nodes :
    (run env [Op.call Unit (List String) strings "condenser_api.get_active_votes" ()
        ResultPtr.toNodes] ⟨NewClient, [], []⟩).client.Nodes = []
    ∧ (Call env accounts
        (run env [Op.call Unit (List String) strings "condenser_api.get_active_votes" ()
          ResultPtr.toNodes] ⟨NewClient, [], []⟩).client
        "database_api.find_accounts" findNectarflower ({ Accounts := [] } : AccountsResponse)
        (run env [Op.call Unit (List String) strings "condenser_api.get_active_votes" ()
          ResultPtr.toNodes] ⟨NewClient, [], []⟩).world).err
      = some (.new "no nodes available") := by
  refine ⟨by decide, by decide⟩

/-- Witness of the amended C10: a refresh, a call into memory of the caller, a
refresh that fails and a `SetNodes` that admits nothing leave `Nodes` non-empty. -/
theorem Nodes_never_emptied_by_separate_calls_witness :
    (run env
      [Op.updateNodesFromAccount "nectarflower",
       Op.call Unit (List String) strings "condenser_api.get_active_votes" ()
         (ResultPtr.separate ["stale"]),
       Op.updateNodesFromAccount "nonodes",
       Op.setNodes ["https://z.example"] [("https://z.example", "timeout")]]
      ⟨NewClient, [], []⟩).client.Nodes ≠ [] :=
  (Nodes_never_emptied_by_separate_calls env
    [Op.updateNodesFromAccount "nectarflower",
     Op.call Unit (List String) strings "condenser_api.get_active_votes" ()
       (ResultPtr.separate ["stale"]),
     Op.updateNodesFromAccount "nonodes",
     Op.setNodes ["https://z.example"] [("https://z.example", "timeout")]]
    [] (by
      intro op hmem
      simp only [List.mem_cons, List.mem_singleton, List.not_mem_nil, or_false] at hmem
      rcases hmem with rfl | rfl | rfl | rfl
      · exact True.intro
      · exact fun _ _ => rfl
      · exact True.intro
      · exact True.intro)).1

end InvariantExamples


end Hive
